import Mathlib

/-
Verification of the AVRT Firewall decision pipeline.

Shallow embedding of the core decision pipeline:
  - ios-sdk/middleware/spiel_engine.py   (SPIELEngine: scorer + policy decision + fail-closed)
  - ios-sdk/middleware/fail_closed.py    (fail-closed wrapper semantics)
  - ios-sdk/backend/services/spiel_service.py (SPIELService scorer)
  - ios-sdk/backend/services/tht_service.py   (THTService validator)
  - ios-sdk/backend/services/hash_service.py  (HashService audit chain)

Modelling conventions:
  - Python strings are lists of characters (Str); str.lower() maps Char.toLower
    over the characters; the substring test (pat in text) is List.IsInfix.
  - Python floats are modelled as exact rationals: every score adjustment in
    the source is a small integer constant, and the only division is the
    composite mean by 5 and the unique-word ratio, both exact in ℚ.
  - SHA-256 is external to the repository (hashlib); the chain functions are
    parameterised over an abstract hash function H, with injectivity taken as
    the collision-free model where a claim requires it.
  - Wall-clock fields of results (processing_time_ms, timestamp) are outside
    the scored mathematics and are not part of the embedded result records.
-/

namespace AVRT

/-- Python strings, as lists of characters. -/
abbrev Str := List Char

/-- Conversion from a Lean string literal to the character-list model. -/
def strOf (s : String) : Str := s.toList

/-- Python str.lower(), character by character. -/
def lowerStr (s : Str) : Str := s.map Char.toLower

/-- Python substring containment test: pat in text. -/
def containsSub (text pat : Str) : Bool := decide (pat <:+: text)

/-- Number of catalog patterns occurring as substrings of the (already
lowercased) text: the net effect of the per-pattern scan loops in the source,
each of which adjusts the score once per pattern found. -/
def countHits (pats : List Str) (tl : Str) : Nat :=
  pats.countP (fun p => containsSub tl p)

/-- Characters Python str.split() and str.strip() treat as whitespace. -/
def isWsp (c : Char) : Bool :=
  c = ' ' || c = '\t' || c = '\n' || c = '\r' || c = '\x0b' || c = '\x0c'

/-- Python text.strip(): drop whitespace from both ends. -/
def pyStrip (s : Str) : Str :=
  ((s.dropWhile isWsp).reverse.dropWhile isWsp).reverse

/-- Python text.split(): maximal nonempty runs between whitespace. -/
def pySplit (s : Str) : List Str :=
  (s.splitOnP isWsp).filter (fun w => w ≠ [])

/-- Truthiness of the context dict fields read by the analyzers:
context.get with key user_preferences or conversation_history. A Python None
or empty (falsy) context is modelled as Option.none. -/
structure Context where
  userPreferences : Bool
  conversationHistory : Bool

/- ===== hash_service.py : audit chain ===== -/

/-- One link of HashService.generate_chain_hash: the loop body
chain_hash = sha256(chain_hash + pipe + entry_hash), with the hash function
abstract. -/
def chainStep (H : Str → Str) (chain entry : Str) : Str :=
  H (chain ++ strOf "|" ++ entry)

/-- HashService.generate_chain_hash: fold the links starting from the
literal genesis string. -/
def generateChainHash (H : Str → Str) (hashes : List Str) : Str :=
  hashes.foldl (chainStep H) (strOf "genesis")

/-- HashService.verify_chain: recompute the chain and compare with the
expected tail. -/
def verifyChain (H : Str → Str) (hashes : List Str) (expected : Str) : Bool :=
  decide (generateChainHash H hashes = expected)

/- ===== spiel_engine.py : SPIELEngine ===== -/

/-- Actions the SPIEL engine can take (EnforcementAction). -/
inductive EnforcementAction where
  | allow
  | block
  | warn
  | review
  | modify
deriving DecidableEq

/-- Per-dimension thresholds read from the policy store
(SPIELEngine.__init__). -/
structure Thresholds where
  safety : ℚ
  ethics : ℚ
  integrity : ℚ
  logic : ℚ
  personalization : ℚ
deriving DecidableEq

/-- Threshold values of SPIELEngine._default_policy. -/
def defaultThresholds : Thresholds :=
  { safety := 85, ethics := 90, integrity := 80, logic := 75, personalization := 70 }

/-- Policy configuration consumed by the engine: the fail_closed flag, the
thresholds and the four pattern lists (SPIELEngine.__init__). -/
structure Policy where
  failClosed : Bool
  thresholds : Thresholds
  harmful : List Str
  unethical : List Str
  dishonest : List Str
  positive : List Str

/-- Harmful pattern list of SPIELEngine._default_policy. -/
def harmfulDefault : List Str :=
  [strOf "harm", strOf "hurt", strOf "attack", strOf "kill", strOf "destroy",
   strOf "hate", strOf "violence", strOf "weapon", strOf "bomb", strOf "poison"]

/-- Unethical pattern list of SPIELEngine._default_policy. -/
def unethicalDefault : List Str :=
  [strOf "cheat", strOf "lie", strOf "deceive", strOf "manipulate",
   strOf "exploit", strOf "abuse", strOf "steal", strOf "fraud"]

/-- Dishonest pattern list of SPIELEngine._default_policy. -/
def dishonestDefault : List Str :=
  [strOf "trust me", strOf "believe me", strOf "guarantee",
   strOf "secret", strOf "don't tell", strOf "definitely"]

/-- Positive pattern list of SPIELEngine._default_policy. -/
def positiveDefault : List Str :=
  [strOf "help", strOf "assist", strOf "support", strOf "understand",
   strOf "because", strOf "reason", strOf "based on"]

/-- Default policy of SPIELEngine._default_policy: fail_closed true, default
thresholds, default pattern lists. This is the configuration in force when no
policy_store.json is present, which is the state of the repository. -/
def defaultPolicy : Policy :=
  { failClosed := true, thresholds := defaultThresholds,
    harmful := harmfulDefault, unethical := unethicalDefault,
    dishonest := dishonestDefault, positive := positiveDefault }

/-- SPIELEngine._analyze_safety: start at 100, subtract 15 per harmful
pattern found in the lowercased text, record a violation per pattern, clamp
below at 0. -/
def analyzeSafety (harmful : List Str) (text : Str) : ℚ × List Str :=
  let tl := lowerStr text
  (max 0 (100 - 15 * (countHits harmful tl : ℚ)),
   (harmful.filter (fun p => containsSub tl p)).map
     (fun p => strOf "harmful_pattern:" ++ p))

/-- Positive markers hard-coded in SPIELEngine._analyze_personalization. -/
def personalMarkersEngine : List Str :=
  [strOf "you", strOf "your", strOf "help", strOf "assist", strOf "would you like"]

/-- Context bonus of SPIELEngine._analyze_personalization: plus 5 when the
context is truthy and has truthy user_preferences. -/
def ctxBonusEngine (ctx : Option Context) : ℚ :=
  match ctx with
  | none => 0
  | some c => if c.userPreferences then 5 else 0

/-- SPIELEngine._analyze_personalization: start at 80, add 4 per positive
marker present, add the context bonus, clamp above at 100. -/
def analyzePersonalization (text : Str) (ctx : Option Context) : ℚ :=
  min 100 (80 + 4 * (countHits personalMarkersEngine (lowerStr text) : ℚ)
             + ctxBonusEngine ctx)

/-- SPIELEngine._analyze_integrity: start at 95, subtract 15 per dishonest
pattern, record a violation per pattern, clamp below at 0. -/
def analyzeIntegrity (dishonest : List Str) (text : Str) : ℚ × List Str :=
  let tl := lowerStr text
  (max 0 (95 - 15 * (countHits dishonest tl : ℚ)),
   (dishonest.filter (fun p => containsSub tl p)).map
     (fun p => strOf "dishonest_pattern:" ++ p))

/-- SPIELEngine._analyze_ethics: start at 100, subtract 20 per unethical
pattern, record a violation per pattern, clamp below at 0. -/
def analyzeEthics (unethical : List Str) (text : Str) : ℚ × List Str :=
  let tl := lowerStr text
  (max 0 (100 - 20 * (countHits unethical tl : ℚ)),
   (unethical.filter (fun p => containsSub tl p)).map
     (fun p => strOf "unethical_pattern:" ++ p))

/-- Logic markers hard-coded in SPIELEngine._analyze_logic. -/
def logicMarkersEngine : List Str :=
  [strOf "because", strOf "therefore", strOf "thus", strOf "since", strOf "based on"]

/-- SPIELEngine._analyze_logic: start at 85, add 3 per logic marker, subtract
20 when the stripped text is shorter than 10 characters, clamp to [0, 100]. -/
def analyzeLogic (text : Str) : ℚ :=
  let base : ℚ := 85 + 3 * (countHits logicMarkersEngine (lowerStr text) : ℚ)
  let afterShort := if (pyStrip text).length < 10 then base - 20 else base
  max 0 (min 100 afterShort)

/-- Justification attached to an enforcement decision. Each constructor
stands for one of the literal f-strings produced by
SPIELEngine._determine_action and the fail-closed branch of
SPIELEngine.enforce, carrying the values interpolated into that string. -/
inductive Reasoning where
  | criticalViolation
  | safetyBelow (score threshold : ℚ)
  | ethicsBelow (score threshold : ℚ)
  | integrityBelow (score threshold : ℚ)
  | logicBelow (score threshold : ℚ)
  | violationsDetected (preview : List Str)
  | allPassed
  | failClosedError (err : Str)
deriving DecidableEq

/-- SPIELEngine._determine_action: the strict-priority decision ladder over
the five dimension scores and the collected violations. -/
def determineAction (th : Thresholds) (safety personalization integrity ethics logic : ℚ)
    (violations : List Str) : EnforcementAction × Reasoning :=
  if safety < 50 ∨ ethics < 50 then
    (EnforcementAction.block, Reasoning.criticalViolation)
  else if safety < th.safety then
    (EnforcementAction.block, Reasoning.safetyBelow safety th.safety)
  else if ethics < th.ethics then
    (EnforcementAction.block, Reasoning.ethicsBelow ethics th.ethics)
  else if integrity < th.integrity then
    (EnforcementAction.warn, Reasoning.integrityBelow integrity th.integrity)
  else if logic < th.logic then
    (EnforcementAction.warn, Reasoning.logicBelow logic th.logic)
  else if violations ≠ [] then
    (EnforcementAction.review, Reasoning.violationsDetected (violations.take 3))
  else
    (EnforcementAction.allow, Reasoning.allPassed)

/-- Result record of SPIELEngine.enforce (SPIELResult), without the
wall-clock fields processing_time_ms and timestamp. -/
structure SPIELResult where
  action : EnforcementAction
  safetyScore : ℚ
  personalizationScore : ℚ
  integrityScore : ℚ
  ethicsScore : ℚ
  logicScore : ℚ
  compositeScore : ℚ
  violations : List Str
  reasoning : Reasoning
deriving DecidableEq

/-- Normal (non-faulting) path of SPIELEngine.enforce: run the five
analyzers, concatenate the violations, take the composite mean, and decide
the action. -/
def enforceOk (pol : Policy) (text : Str) (ctx : Option Context) : SPIELResult :=
  let safety := (analyzeSafety pol.harmful text).1
  let safetyV := (analyzeSafety pol.harmful text).2
  let personalization := analyzePersonalization text ctx
  let integrity := (analyzeIntegrity pol.dishonest text).1
  let integrityV := (analyzeIntegrity pol.dishonest text).2
  let ethics := (analyzeEthics pol.unethical text).1
  let ethicsV := (analyzeEthics pol.unethical text).2
  let logic := analyzeLogic text
  let allViolations := safetyV ++ integrityV ++ ethicsV
  let composite := (safety + personalization + integrity + ethics + logic) / 5
  let decided := determineAction pol.thresholds safety personalization integrity ethics logic allViolations
  { action := decided.1, safetyScore := safety, personalizationScore := personalization,
    integrityScore := integrity, ethicsScore := ethics, logicScore := logic,
    compositeScore := composite, violations := allViolations, reasoning := decided.2 }

/-- Result built by the except-branch of SPIELEngine.enforce when
fail_closed is set: BLOCK, all scores zero, violation system_error, and a
reasoning string carrying the description of the caught fault. -/
def errorResult (e : Str) : SPIELResult :=
  { action := EnforcementAction.block, safetyScore := 0, personalizationScore := 0,
    integrityScore := 0, ethicsScore := 0, logicScore := 0, compositeScore := 0,
    violations := [strOf "system_error"], reasoning := Reasoning.failClosedError e }

/-- SPIELEngine.enforce. The try-block around the analyzers and the action
decision is modelled by an injected optional fault: fault = some e stands for
any Python exception with description e raised anywhere inside the try. On a
fault, the engine returns the fail-closed BLOCK result when pol.failClosed is
set and re-raises (Except.error) otherwise, exactly as the except-branch of
the source. -/
def enforce (pol : Policy) (fault : Option Str) (text : Str) (ctx : Option Context) :
    Except Str SPIELResult :=
  match fault with
  | some e => if pol.failClosed then Except.ok (errorResult e) else Except.error e
  | none => Except.ok (enforceOk pol text ctx)

/- ===== spiel_service.py : SPIELService ===== -/

namespace SService

/-- Harmful pattern list hard-coded in SPIELService.__init__. -/
def harmfulPatterns : List Str :=
  [strOf "harm", strOf "hurt", strOf "attack", strOf "kill", strOf "destroy",
   strOf "hate", strOf "violence", strOf "dangerous", strOf "threat", strOf "murder",
   strOf "weapon", strOf "bomb", strOf "explosive", strOf "poison"]

/-- Dishonest pattern list hard-coded in SPIELService.__init__. -/
def dishonestPatterns : List Str :=
  [strOf "just trust me", strOf "believe me", strOf "i guarantee",
   strOf "secret", strOf "don't tell anyone", strOf "between us",
   strOf "definitely", strOf "absolutely certain", strOf "100% guarantee"]

/-- Unethical pattern list hard-coded in SPIELService.__init__. -/
def unethicalPatterns : List Str :=
  [strOf "cheat", strOf "lie", strOf "deceive", strOf "manipulate",
   strOf "exploit", strOf "abuse", strOf "steal", strOf "fraud",
   strOf "illegal", strOf "scam"]

/-- Personalization markers hard-coded in SPIELService.__init__. -/
def personalMarkers : List Str :=
  [strOf "you", strOf "your", strOf "i can help", strOf "let me",
   strOf "would you like", strOf "i understand", strOf "here's what"]

/-- Logic markers hard-coded in SPIELService.__init__. -/
def logicMarkers : List Str :=
  [strOf "because", strOf "therefore", strOf "thus", strOf "consequently",
   strOf "as a result", strOf "due to", strOf "since", strOf "given that"]

/-- Threshold configuration of SPIELService.__init__ with its defaults. -/
structure Config where
  safetyThreshold : ℚ
  ethicsThreshold : ℚ
  integrityThreshold : ℚ

/-- Default thresholds of SPIELService.__init__. -/
def defaultConfig : Config :=
  { safetyThreshold := 85, ethicsThreshold := 90, integrityThreshold := 80 }

/-- SPIELService._analyze_safety: 100 minus 15 per harmful pattern, clamped
to [0, 100]. -/
def analyzeSafetyS (text : Str) : ℚ :=
  max 0 (min 100 (100 - 15 * (countHits harmfulPatterns (lowerStr text) : ℚ)))

/-- Context bonus of SPIELService._analyze_personalization: plus 5 for
user_preferences and plus 3 for conversation_history when the context is
truthy. -/
def ctxBonusS (ctx : Option Context) : ℚ :=
  match ctx with
  | none => 0
  | some c => (if c.userPreferences then 5 else 0) + (if c.conversationHistory then 3 else 0)

/-- SPIELService._analyze_personalization: 80 plus 3 per personal marker plus
the context bonus, clamped above at 100. -/
def analyzePersonalizationS (text : Str) (ctx : Option Context) : ℚ :=
  min 100 (80 + 3 * (countHits personalMarkers (lowerStr text) : ℚ) + ctxBonusS ctx)

/-- SPIELService._analyze_integrity: 95 minus 15 per dishonest pattern,
clamped below at 0. -/
def analyzeIntegrityS (text : Str) : ℚ :=
  max 0 (95 - 15 * (countHits dishonestPatterns (lowerStr text) : ℚ))

/-- SPIELService._analyze_ethics: 100 minus 20 per unethical pattern, clamped
below at 0. -/
def analyzeEthicsS (text : Str) : ℚ :=
  max 0 (100 - 20 * (countHits unethicalPatterns (lowerStr text) : ℚ))

/-- SPIELService._analyze_logic: 85 plus 3 per logic marker, minus 20 for a
stripped length under 10, minus 15 when more than 5 words have a unique-word
ratio under one half, clamped to [0, 100]. -/
def analyzeLogicS (text : Str) : ℚ :=
  let tl := lowerStr text
  let base : ℚ := 85 + 3 * (countHits logicMarkers tl : ℚ)
  let afterShort := if (pyStrip text).length < 10 then base - 20 else base
  let words := pySplit tl
  let afterRep :=
    if 5 < words.length ∧ (words.dedup.length : ℚ) / (words.length : ℚ) < 1 / 2 then
      afterShort - 15
    else afterShort
  max 0 (min 100 afterRep)

/-- Result record of SPIELService.analyze: the five dimension scores, the
composite, the passing flag and the echoed thresholds. -/
structure Analysis where
  safety : ℚ
  personalization : ℚ
  integrity : ℚ
  ethics : ℚ
  logic : ℚ
  composite : ℚ
  isPassing : Bool
  safetyThreshold : ℚ
  ethicsThreshold : ℚ
  integrityThreshold : ℚ
deriving DecidableEq

/-- SPIELService.analyze: run the five analyzers, take the composite mean,
and compute the passing flag against the configured thresholds. -/
def analyze (cfg : Config) (text : Str) (ctx : Option Context) : Analysis :=
  let safety := analyzeSafetyS text
  let personalization := analyzePersonalizationS text ctx
  let integrity := analyzeIntegrityS text
  let ethics := analyzeEthicsS text
  let logic := analyzeLogicS text
  let composite := (safety + personalization + integrity + ethics + logic) / 5
  { safety := safety, personalization := personalization, integrity := integrity,
    ethics := ethics, logic := logic, composite := composite,
    isPassing := decide (cfg.safetyThreshold ≤ safety) &&
                 decide (cfg.integrityThreshold ≤ integrity) &&
                 decide (cfg.ethicsThreshold ≤ ethics) &&
                 decide (cfg.safetyThreshold ≤ composite),
    safetyThreshold := cfg.safetyThreshold, ethicsThreshold := cfg.ethicsThreshold,
    integrityThreshold := cfg.integrityThreshold }

end SService

/- ===== tht_service.py : THTService ===== -/

namespace THT

/-- Overconfident-claim patterns hard-coded in THTService.__init__. -/
def falsePatterns : List Str :=
  [strOf "definitely", strOf "absolutely certain", strOf "100% guarantee",
   strOf "always true", strOf "never wrong", strOf "guaranteed to work",
   strOf "everyone knows", strOf "obviously", strOf "undeniably"]

/-- Secrecy and manipulation patterns hard-coded in THTService.__init__. -/
def dishonestPatterns : List Str :=
  [strOf "just between us", strOf "don't tell", strOf "keep this secret",
   strOf "you can trust me", strOf "believe me", strOf "trust me on this",
   strOf "off the record", strOf "confidentially"]

/-- Reasoning-marker patterns hard-coded in THTService.__init__. -/
def transparentMarkers : List Str :=
  [strOf "because", strOf "the reason", strOf "this is based on",
   strOf "according to", strOf "evidence suggests", strOf "research shows",
   strOf "in my understanding", strOf "i believe", strOf "it appears that",
   strOf "based on", strOf "considering"]

/-- Claim-indicating words hard-coded in THTService.__init__. -/
def claimPatterns : List Str :=
  [strOf "is", strOf "are", strOf "will", strOf "should", strOf "must",
   strOf "can", strOf "cannot", strOf "always", strOf "never"]

/-- THTService._verify_truth: fail exactly when an overconfident-claim
pattern occurs in the lowercased text. -/
def verifyTruth (text : Str) : Bool :=
  !(falsePatterns.any (fun p => containsSub (lowerStr text) p))

/-- THTService._verify_honesty: fail exactly when a secrecy or manipulation
pattern occurs in the lowercased text. -/
def verifyHonesty (text : Str) : Bool :=
  !(dishonestPatterns.any (fun p => containsSub (lowerStr text) p))

/-- THTService._verify_transparency: if a claim word occurs, texts shorter
than 50 characters pass, longer ones need a reasoning marker; texts without
claim words pass. -/
def verifyTransparency (text : Str) : Bool :=
  let tl := lowerStr text
  let hasClaims := claimPatterns.any (fun p => containsSub tl p)
  if hasClaims then
    let hasTransparency := transparentMarkers.any (fun m => containsSub tl m)
    if text.length < 50 then true
    else if hasTransparency = false then false
    else true
  else true

/-- Confidence threshold of THTService.__init__, default 0.8. -/
structure Config where
  confidenceThreshold : ℚ

/-- Default THT configuration. -/
def defaultConfig : Config := { confidenceThreshold := 4 / 5 }

/-- Issue string appended on a Truth failure. -/
def truthIssue : Str := strOf "Truth verification failed: overconfident claims detected"

/-- Issue string appended on an Honesty failure. -/
def honestyIssue : Str := strOf "Honesty check failed: secretive or manipulative patterns detected"

/-- Issue string appended on a Transparency failure. -/
def transparencyIssue : Str := strOf "Transparency check failed: claims without supporting reasoning"

/-- Result record of THTService.validate. -/
structure Result where
  truthVerified : Bool
  honestyVerified : Bool
  transparencyVerified : Bool
  confidenceScore : ℚ
  isCompliant : Bool
  issues : List Str
deriving DecidableEq

/-- THTService.validate: the three checks, the issue list, the confidence as
the fraction of passing checks, and the compliance flag. The context argument
is accepted and ignored, as in the source. -/
def validate (cfg : Config) (text : Str) (ctx : Option Context) : Result :=
  let t := verifyTruth text
  let h := verifyHonesty text
  let tr := verifyTransparency text
  let confidence : ℚ :=
    (((if t then 1 else 0) + (if h then 1 else 0) + (if tr then 1 else 0) : ℚ)) / 3
  { truthVerified := t, honestyVerified := h, transparencyVerified := tr,
    confidenceScore := confidence,
    isCompliant := t && h && tr && decide (cfg.confidenceThreshold ≤ confidence),
    issues := (if t then [] else [truthIssue]) ++ (if h then [] else [honestyIssue]) ++
              (if tr then [] else [transparencyIssue]) }

end THT

/- ===== Helper lemmas ===== -/

/-- Occurrence as a substring is preserved when the text is extended on the
right. -/
lemma sub_append_right {p t : Str} (q : Str) (h : p <:+: t) : p <:+: t ++ q := by
  obtain ⟨s, u, hsu⟩ := h
  exact ⟨s, u ++ q, by rw [← hsu]; simp [List.append_assoc]⟩

/-- Extending the text can only add pattern hits. -/
lemma countHits_le_append (pats : List Str) (t q : Str) :
    countHits pats t ≤ countHits pats (t ++ q) := by
  apply List.countP_mono_left
  intro p _ hp
  simp only [containsSub, decide_eq_true_eq] at hp ⊢
  exact sub_append_right q hp

/-- Lowercasing distributes over concatenation. -/
lemma lowerStr_append (s t : Str) : lowerStr (s ++ t) = lowerStr s ++ lowerStr t :=
  List.map_append Char.toLower s t

/-- A value clamped to [0, 100] from both sides lies in [0, 100]. -/
lemma clamp01_bounds (x : ℚ) : 0 ≤ max 0 (min 100 x) ∧ max 0 (min 100 x) ≤ 100 :=
  ⟨le_max_left _ _, max_le (by norm_num) (min_le_left _ _)⟩

/-- A value at most 100 clamped below at 0 lies in [0, 100]. -/
lemma clampLow_bounds {x : ℚ} (hx : x ≤ 100) : 0 ≤ max 0 x ∧ max 0 x ≤ 100 :=
  ⟨le_max_left _ _, max_le (by norm_num) hx⟩

/-- A nonnegative value clamped above at 100 lies in [0, 100]. -/
lemma clampHigh_bounds {x : ℚ} (hx : 0 ≤ x) : 0 ≤ min 100 x ∧ min 100 x ≤ 100 :=
  ⟨le_min (by norm_num) hx, min_le_left _ _⟩

/-- Context bonus of the engine is nonnegative. -/
lemma ctxBonusEngine_nonneg (ctx : Option Context) : 0 ≤ ctxBonusEngine ctx := by
  cases ctx with
  | none => simp [ctxBonusEngine]
  | some c => simp only [ctxBonusEngine]; split <;> norm_num

/-- Context bonus of the service is nonnegative. -/
lemma ctxBonusS_nonneg (ctx : Option Context) : 0 ≤ SService.ctxBonusS ctx := by
  cases ctx with
  | none => simp [SService.ctxBonusS]
  | some c =>
    simp only [SService.ctxBonusS]
    have h1 : (0:ℚ) ≤ if c.userPreferences then 5 else 0 := by split <;> norm_num
    have h2 : (0:ℚ) ≤ if c.conversationHistory then 3 else 0 := by split <;> norm_num
    linarith

/-- A different chain value gives a different next link (collision-free
model). -/
lemma chainStep_left_ne (H : Str → Str) (hinj : Function.Injective H)
    {c₁ c₂ : Str} (e : Str) (h : c₁ ≠ c₂) : chainStep H c₁ e ≠ chainStep H c₂ e := by
  intro heq
  apply h
  have h1 := hinj heq
  exact List.append_cancel_right (List.append_cancel_right h1)

/-- A different entry gives a different next link (collision-free model). -/
lemma chainStep_entry_ne (H : Str → Str) (hinj : Function.Injective H)
    (c : Str) {a b : Str} (h : a ≠ b) : chainStep H c a ≠ chainStep H c b := by
  intro heq
  exact h (List.append_cancel_left (hinj heq))

/-- Folding the remaining entries preserves a difference of chain values. -/
lemma foldl_chainStep_ne (H : Str → Str) (hinj : Function.Injective H) (tail : List Str) :
    ∀ {c₁ c₂ : Str}, c₁ ≠ c₂ →
      tail.foldl (chainStep H) c₁ ≠ tail.foldl (chainStep H) c₂ := by
  induction tail with
  | nil => intro c₁ c₂ h; exact h
  | cons e rest ih => intro c₁ c₂ h; exact ih (chainStep_left_ne H hinj e h)

/-- Concrete injective stand-in for the hash function, used to instantiate
hypotheses at concrete inputs. -/
def hW (s : Str) : Str := 'h' :: s

/-- The stand-in hash function is injective. -/
lemma hW_inj : Function.Injective hW := by
  intro a b h
  simpa [hW] using h

/- ===== Claim theorems ===== -/

/-- C10: generate_chain_hash of the empty list is the literal string genesis
for every hash function (so no hashing is performed), and verify_chain of the
empty list against genesis returns true. -/
theorem chain_empty_genesis : ∀ H : Str → Str,
    generateChainHash H [] = strOf "genesis" ∧
    verifyChain H [] (strOf "genesis") = true :=
  fun H => ⟨rfl, by simp [verifyChain, generateChainHash]⟩

/-- C2: for every collision-free hash function, every nonempty hash list
verifies against its own computed chain tail; and replacing any single entry
by a different value makes verification against the original tail fail. -/
theorem chain_verify_roundtrip_and_tamper (H : Str → Str) (hinj : Function.Injective H) :
    (∀ hashes : List Str, hashes ≠ [] →
      verifyChain H hashes (generateChainHash H hashes) = true) ∧
    (∀ (pre suf : List Str) (a b : Str), a ≠ b →
      verifyChain H (pre ++ b :: suf) (generateChainHash H (pre ++ a :: suf)) = false) := by
  constructor
  · intro hashes _
    simp [verifyChain]
  · intro pre suf a b hab
    simp only [verifyChain, decide_eq_false_iff_not]
    simp only [generateChainHash, List.foldl_append, List.foldl_cons]
    exact foldl_chainStep_ne H hinj suf (chainStep_entry_ne H hinj _ (Ne.symm hab))

/-- Witness for C2 at a concrete injective hash function and concrete
three-entry chains. -/
theorem chain_verify_roundtrip_and_tamper_witness :
    verifyChain hW [strOf "a", strOf "b"] (generateChainHash hW [strOf "a", strOf "b"]) = true ∧
    verifyChain hW [strOf "a", strOf "x", strOf "c"]
      (generateChainHash hW [strOf "a", strOf "b", strOf "c"]) = false := by
  have h := chain_verify_roundtrip_and_tamper hW hW_inj
  exact ⟨h.1 _ (by simp), h.2 [strOf "a"] [strOf "c"] (strOf "b") (strOf "x") (by decide)⟩

/-- C8: every text shorter than 50 characters passes the Transparency check,
whatever claim words it contains and whether or not reasoning markers are
present. -/
theorem transparency_short_text_passes : ∀ text : Str, text.length < 50 →
    THT.verifyTransparency text = true := by
  intro text h
  simp only [THT.verifyTransparency]
  split <;> simp_all

/-- Witness for C8: a 16-character text containing the claim word are and no
reasoning marker passes Transparency. -/
theorem transparency_short_text_passes_witness :
    THT.verifyTransparency (strOf "cats are animals") = true :=
  transparency_short_text_passes _ (by decide)

/-- C6: the scorer and the validator are pure functions of (text, context):
two calls on identical inputs return identical dimension scores, composite,
check results and confidence. The embedded definitions contain no randomness
and no clock; the returned records of the source carry no time field. -/
theorem scoring_deterministic : ∀ (text : Str) (ctx : Option Context),
    SService.analyze SService.defaultConfig text ctx =
      SService.analyze SService.defaultConfig text ctx ∧
    THT.validate THT.defaultConfig text ctx = THT.validate THT.defaultConfig text ctx :=
  fun _ _ => ⟨rfl, rfl⟩

/-- C4: every dimension score of the engine scorer and of the service scorer
lies in the closed interval [0, 100], for every text, context and pattern
catalog. -/
theorem dimension_scores_bounded :
    ∀ (pats : List Str) (text : Str) (ctx : Option Context),
      (0 ≤ (analyzeSafety pats text).1 ∧ (analyzeSafety pats text).1 ≤ 100) ∧
      (0 ≤ analyzePersonalization text ctx ∧ analyzePersonalization text ctx ≤ 100) ∧
      (0 ≤ (analyzeIntegrity pats text).1 ∧ (analyzeIntegrity pats text).1 ≤ 100) ∧
      (0 ≤ (analyzeEthics pats text).1 ∧ (analyzeEthics pats text).1 ≤ 100) ∧
      (0 ≤ analyzeLogic text ∧ analyzeLogic text ≤ 100) ∧
      (0 ≤ SService.analyzeSafetyS text ∧ SService.analyzeSafetyS text ≤ 100) ∧
      (0 ≤ SService.analyzePersonalizationS text ctx ∧
        SService.analyzePersonalizationS text ctx ≤ 100) ∧
      (0 ≤ SService.analyzeIntegrityS text ∧ SService.analyzeIntegrityS text ≤ 100) ∧
      (0 ≤ SService.analyzeEthicsS text ∧ SService.analyzeEthicsS text ≤ 100) ∧
      (0 ≤ SService.analyzeLogicS text ∧ SService.analyzeLogicS text ≤ 100) := by
  intro pats text ctx
  have hc : ∀ n : Nat, (0:ℚ) ≤ (n : ℚ) := fun n => Nat.cast_nonneg n
  refine ⟨?_, ?_, ?_, ?_, ?_, ?_, ?_, ?_, ?_, ?_⟩
  · exact clampLow_bounds (by have := hc (countHits pats (lowerStr text)); linarith)
  · exact clampHigh_bounds (by
      have := hc (countHits personalMarkersEngine (lowerStr text))
      have := ctxBonusEngine_nonneg ctx
      simp only [analyzePersonalization] at *
      linarith)
  · exact clampLow_bounds (by have := hc (countHits pats (lowerStr text)); linarith)
  · exact clampLow_bounds (by have := hc (countHits pats (lowerStr text)); linarith)
  · exact (by simp only [analyzeLogic]; exact clamp01_bounds _)
  · exact (by simp only [SService.analyzeSafetyS]; exact clamp01_bounds _)
  · exact clampHigh_bounds (by
      have := hc (countHits SService.personalMarkers (lowerStr text))
      have := ctxBonusS_nonneg ctx
      simp only [SService.analyzePersonalizationS] at *
      linarith)
  · exact clampLow_bounds (by
      have := hc (countHits SService.dishonestPatterns (lowerStr text)); linarith)
  · exact clampLow_bounds (by
      have := hc (countHits SService.unethicalPatterns (lowerStr text)); linarith)
  · exact (by simp only [SService.analyzeLogicS]; exact clamp01_bounds _)

/-- C9: the Personalization score starts at a baseline of 80 and is only ever
increased and capped at 100, in the engine and in the service, so it always
lies in [80, 100], always clears the default personalization threshold of 70,
and the action-decision ladder does not read it at all. -/
theorem personalization_floor :
    ∀ (text : Str) (ctx : Option Context),
      (80 ≤ analyzePersonalization text ctx ∧ analyzePersonalization text ctx ≤ 100) ∧
      (80 ≤ SService.analyzePersonalizationS text ctx ∧
        SService.analyzePersonalizationS text ctx ≤ 100) ∧
      defaultThresholds.personalization ≤ analyzePersonalization text ctx ∧
      defaultThresholds.personalization ≤ SService.analyzePersonalizationS text ctx ∧
      (∀ (th : Thresholds) (s p₁ p₂ i e l : ℚ) (v : List Str),
        determineAction th s p₁ i e l v = determineAction th s p₂ i e l v) := by
  intro text ctx
  have hc : ∀ n : Nat, (0:ℚ) ≤ (n : ℚ) := fun n => Nat.cast_nonneg n
  have hE : 80 ≤ analyzePersonalization text ctx ∧ analyzePersonalization text ctx ≤ 100 := by
    constructor
    · apply le_min (by norm_num)
      have := hc (countHits personalMarkersEngine (lowerStr text))
      have := ctxBonusEngine_nonneg ctx
      linarith
    · exact min_le_left _ _
  have hS : 80 ≤ SService.analyzePersonalizationS text ctx ∧
      SService.analyzePersonalizationS text ctx ≤ 100 := by
    constructor
    · apply le_min (by norm_num)
      have := hc (countHits SService.personalMarkers (lowerStr text))
      have := ctxBonusS_nonneg ctx
      linarith
    · exact min_le_left _ _
  refine ⟨hE, hS, ?_, ?_, fun th s p₁ p₂ i e l v => rfl⟩
  · exact le_trans (by norm_num [defaultThresholds]) hE.1
  · exact le_trans (by norm_num [defaultThresholds]) hS.1

/-- Mean of five rationals lies between their minimum and their maximum. -/
lemma mean5_between (a b c d e : ℚ) :
    min a (min b (min c (min d e))) ≤ (a + b + c + d + e) / 5 ∧
    (a + b + c + d + e) / 5 ≤ max a (max b (max c (max d e))) := by
  have m1 : min a (min b (min c (min d e))) ≤ a := min_le_left _ _
  have m2 : min a (min b (min c (min d e))) ≤ b :=
    le_trans (min_le_right _ _) (min_le_left _ _)
  have m3 : min a (min b (min c (min d e))) ≤ c :=
    le_trans (min_le_right _ _) (le_trans (min_le_right _ _) (min_le_left _ _))
  have m4 : min a (min b (min c (min d e))) ≤ d :=
    le_trans (min_le_right _ _)
      (le_trans (min_le_right _ _) (le_trans (min_le_right _ _) (min_le_left _ _)))
  have m5 : min a (min b (min c (min d e))) ≤ e :=
    le_trans (min_le_right _ _)
      (le_trans (min_le_right _ _) (le_trans (min_le_right _ _) (min_le_right _ _)))
  have x1 : a ≤ max a (max b (max c (max d e))) := le_max_left _ _
  have x2 : b ≤ max a (max b (max c (max d e))) :=
    le_trans (le_max_left _ _) (le_max_right _ _)
  have x3 : c ≤ max a (max b (max c (max d e))) :=
    le_trans (le_trans (le_max_left _ _) (le_max_right _ _)) (le_max_right _ _)
  have x4 : d ≤ max a (max b (max c (max d e))) :=
    le_trans (le_trans (le_trans (le_max_left _ _) (le_max_right _ _)) (le_max_right _ _))
      (le_max_right _ _)
  have x5 : e ≤ max a (max b (max c (max d e))) :=
    le_trans (le_trans (le_trans (le_max_right _ _) (le_max_right _ _)) (le_max_right _ _))
      (le_max_right _ _)
  constructor <;> linarith

/-- C5: in the engine and in the service, the composite score is exactly the
unweighted arithmetic mean of the five dimension scores, and therefore lies
between the minimum and the maximum dimension score. -/
theorem composite_is_mean :
    ∀ (pol : Policy) (cfg : SService.Config) (text : Str) (ctx : Option Context),
      ((enforceOk pol text ctx).compositeScore =
          ((enforceOk pol text ctx).safetyScore + (enforceOk pol text ctx).personalizationScore +
           (enforceOk pol text ctx).integrityScore + (enforceOk pol text ctx).ethicsScore +
           (enforceOk pol text ctx).logicScore) / 5 ∧
        min (enforceOk pol text ctx).safetyScore
            (min (enforceOk pol text ctx).personalizationScore
              (min (enforceOk pol text ctx).integrityScore
                (min (enforceOk pol text ctx).ethicsScore (enforceOk pol text ctx).logicScore)))
          ≤ (enforceOk pol text ctx).compositeScore ∧
        (enforceOk pol text ctx).compositeScore ≤
          max (enforceOk pol text ctx).safetyScore
            (max (enforceOk pol text ctx).personalizationScore
              (max (enforceOk pol text ctx).integrityScore
                (max (enforceOk pol text ctx).ethicsScore (enforceOk pol text ctx).logicScore)))) ∧
      ((SService.analyze cfg text ctx).composite =
          ((SService.analyze cfg text ctx).safety + (SService.analyze cfg text ctx).personalization +
           (SService.analyze cfg text ctx).integrity + (SService.analyze cfg text ctx).ethics +
           (SService.analyze cfg text ctx).logic) / 5 ∧
        min (SService.analyze cfg text ctx).safety
            (min (SService.analyze cfg text ctx).personalization
              (min (SService.analyze cfg text ctx).integrity
                (min (SService.analyze cfg text ctx).ethics (SService.analyze cfg text ctx).logic)))
          ≤ (SService.analyze cfg text ctx).composite ∧
        (SService.analyze cfg text ctx).composite ≤
          max (SService.analyze cfg text ctx).safety
            (max (SService.analyze cfg text ctx).personalization
              (max (SService.analyze cfg text ctx).integrity
                (max (SService.analyze cfg text ctx).ethics
                  (SService.analyze cfg text ctx).logic)))) := by
  intro pol cfg text ctx
  constructor
  · exact ⟨rfl, (mean5_between _ _ _ _ _).1, (mean5_between _ _ _ _ _).2⟩
  · exact ⟨rfl, (mean5_between _ _ _ _ _).1, (mean5_between _ _ _ _ _).2⟩

/-- C1 (amended): when the policy's fail_closed flag is set, which is the
default and the only configuration shipped with the repository, enforce never
propagates a fault: it always returns a result, and on any internal fault the
result is the BLOCK record whose reasoning carries the fault description and
whose action is not ALLOW. With fail_closed unset the source re-raises, which
is the correction recorded against the original claim. -/
theorem enforce_fail_closed_block :
    ∀ (pol : Policy) (fault : Option Str) (text : Str) (ctx : Option Context),
      pol.failClosed = true →
      (∃ r, enforce pol fault text ctx = Except.ok r) ∧
      (∀ e, fault = some e →
        enforce pol fault text ctx = Except.ok (errorResult e) ∧
        (errorResult e).action = EnforcementAction.block ∧
        (errorResult e).reasoning = Reasoning.failClosedError e ∧
        (errorResult e).action ≠ EnforcementAction.allow) := by
  intro pol fault text ctx hfc
  constructor
  · cases fault with
    | none => exact ⟨enforceOk pol text ctx, rfl⟩
    | some e => exact ⟨errorResult e, by simp [enforce, hfc]⟩
  · intro e he
    subst he
    exact ⟨by simp [enforce, hfc], rfl, rfl, by simp [errorResult]⟩

/-- Witness for C1 at the default policy and a concrete fault. -/
theorem enforce_fail_closed_block_witness :
    enforce defaultPolicy (some (strOf "fault")) [] none =
      Except.ok (errorResult (strOf "fault")) ∧
    (errorResult (strOf "fault")).action = EnforcementAction.block := by
  have h := enforce_fail_closed_block defaultPolicy (some (strOf "fault")) [] none rfl
  exact ⟨(h.2 _ rfl).1, (h.2 _ rfl).2.1⟩

/-- Counterexample for C1 as stated: with fail_closed unset in the policy, a
fault inside enforce propagates to the caller instead of returning a BLOCK
result. -/
theorem enforce_propagates_counterexample :
    enforce { defaultPolicy with failClosed := false } (some (strOf "boom")) [] none =
      Except.error (strOf "boom") := rfl

/-- C3: the critical rule has first priority: whatever the thresholds and the
other scores, safety under 50 or ethics under 50 decides BLOCK with the
critical-violation justification; and any text containing kill, attack,
weapon and violence together scores safety under 50 and is blocked by
enforce with that justification, under the default harmful catalog. -/
theorem critical_rule_first_priority :
    (∀ (th : Thresholds) (s p i e l : ℚ) (v : List Str),
      s < 50 ∨ e < 50 →
      determineAction th s p i e l v = (EnforcementAction.block, Reasoning.criticalViolation)) ∧
    (∀ (pol : Policy) (text : Str) (ctx : Option Context),
      pol.harmful = harmfulDefault →
      strOf "kill" <:+: lowerStr text →
      strOf "attack" <:+: lowerStr text →
      strOf "weapon" <:+: lowerStr text →
      strOf "violence" <:+: lowerStr text →
      (analyzeSafety pol.harmful text).1 < 50 ∧
      (enforceOk pol text ctx).action = EnforcementAction.block ∧
      (enforceOk pol text ctx).reasoning = Reasoning.criticalViolation) := by
  have hfirst : ∀ (th : Thresholds) (s p i e l : ℚ) (v : List Str),
      s < 50 ∨ e < 50 →
      determineAction th s p i e l v = (EnforcementAction.block, Reasoning.criticalViolation) := by
    intro th s p i e l v h
    simp only [determineAction, if_pos h]
  refine ⟨hfirst, ?_⟩
  intro pol text ctx hh h1 h2 h3 h4
  have hsub : [strOf "kill", strOf "attack", strOf "weapon", strOf "violence"] ⊆
      harmfulDefault.filter (fun p => containsSub (lowerStr text) p) := by
    intro x hx
    simp only [List.mem_cons, List.not_mem_nil, or_false] at hx
    rcases hx with rfl | rfl | rfl | rfl
    · exact List.mem_filter.mpr ⟨by decide, by simpa [containsSub] using h1⟩
    · exact List.mem_filter.mpr ⟨by decide, by simpa [containsSub] using h2⟩
    · exact List.mem_filter.mpr ⟨by decide, by simpa [containsSub] using h3⟩
    · exact List.mem_filter.mpr ⟨by decide, by simpa [containsSub] using h4⟩
  have hnodup : [strOf "kill", strOf "attack", strOf "weapon", strOf "violence"].Nodup := by
    decide
  have hlen := (hnodup.subperm hsub).length_le
  have hcount : 4 ≤ countHits harmfulDefault (lowerStr text) := by
    simpa [countHits, List.countP_eq_length_filter] using hlen
  have hsafety : (analyzeSafety harmfulDefault text).1 < 50 := by
    have hq : (4:ℚ) ≤ (countHits harmfulDefault (lowerStr text) : ℚ) := by exact_mod_cast hcount
    simp only [analyzeSafety]
    exact max_lt (by norm_num) (by linarith)
  have hs' : (analyzeSafety pol.harmful text).1 < 50 := by rw [hh]; exact hsafety
  refine ⟨hs', ?_, ?_⟩
  · show (determineAction pol.thresholds (analyzeSafety pol.harmful text).1
      (analyzePersonalization text ctx) (analyzeIntegrity pol.dishonest text).1
      (analyzeEthics pol.unethical text).1 (analyzeLogic text)
      ((analyzeSafety pol.harmful text).2 ++ (analyzeIntegrity pol.dishonest text).2 ++
        (analyzeEthics pol.unethical text).2)).1 = EnforcementAction.block
    rw [hfirst _ _ _ _ _ _ _ (Or.inl hs')]
  · show (determineAction pol.thresholds (analyzeSafety pol.harmful text).1
      (analyzePersonalization text ctx) (analyzeIntegrity pol.dishonest text).1
      (analyzeEthics pol.unethical text).1 (analyzeLogic text)
      ((analyzeSafety pol.harmful text).2 ++ (analyzeIntegrity pol.dishonest text).2 ++
        (analyzeEthics pol.unethical text).2)).2 = Reasoning.criticalViolation
    rw [hfirst _ _ _ _ _ _ _ (Or.inl hs')]

/-- Witness for C3 at concrete scores and the concrete critical-harm text. -/
theorem critical_rule_first_priority_witness :
    determineAction defaultThresholds 40 80 95 100 85 [] =
      (EnforcementAction.block, Reasoning.criticalViolation) ∧
    (analyzeSafety defaultPolicy.harmful (strOf "kill attack weapon violence")).1 < 50 ∧
    (enforceOk defaultPolicy (strOf "kill attack weapon violence") none).action =
      EnforcementAction.block := by
  have h := critical_rule_first_priority
  have h2 := h.2 defaultPolicy (strOf "kill attack weapon violence") none rfl
    (by decide) (by decide) (by decide) (by decide)
  exact ⟨h.1 defaultThresholds 40 80 95 100 85 [] (Or.inl (by norm_num)), h2.1, h2.2.1⟩

/-- C7: appending a phrase of the harmful catalog to a text never increases
the Safety score, in the engine scorer (for any catalog containing the
phrase) and in the service scorer. -/
theorem safety_monotone_append :
    ∀ (harmful : List Str) (p : Str), p ∈ harmful → ∀ text : Str,
      (analyzeSafety harmful (text ++ p)).1 ≤ (analyzeSafety harmful text).1 ∧
      (p ∈ SService.harmfulPatterns →
        SService.analyzeSafetyS (text ++ p) ≤ SService.analyzeSafetyS text) := by
  intro harmful p _ text
  have key : ∀ pats : List Str,
      (countHits pats (lowerStr text) : ℚ) ≤ (countHits pats (lowerStr (text ++ p)) : ℚ) := by
    intro pats
    rw [lowerStr_append]
    exact_mod_cast countHits_le_append pats (lowerStr text) (lowerStr p)
  constructor
  · have hq := key harmful
    simp only [analyzeSafety]
    exact max_le_max le_rfl (by linarith)
  · intro _
    have hq := key SService.harmfulPatterns
    simp only [SService.analyzeSafetyS]
    exact max_le_max le_rfl (min_le_min le_rfl (by linarith))

/-- Witness for C7 at the phrase kill of both catalogs and a concrete text. -/
theorem safety_monotone_append_witness :
    (analyzeSafety harmfulDefault (strOf "be nice" ++ strOf "kill")).1 ≤
      (analyzeSafety harmfulDefault (strOf "be nice")).1 ∧
    SService.analyzeSafetyS (strOf "be nice" ++ strOf "kill") ≤
      SService.analyzeSafetyS (strOf "be nice") := by
  have h := safety_monotone_append harmfulDefault (strOf "kill") (by decide) (strOf "be nice")
  exact ⟨h.1, h.2 (by decide)⟩

end AVRT
